import Mathlib

/-!
Verification of the volume transcoding and stack validation core of
`zeijemol/views/triplanar.py` (views `TriplanarStackViewer` /
`TriplanarImageViewer` and the ajax callbacks `get_b64_images`,
`get_encoded_brainbrowser_image`, `get_brainbrowser_image`).

Shallow embedding conventions:
 * numpy arrays are modelled as shape-plus-indexing-function records
   (`Arr3`, `Arr4`); indexing outside the shape is junk and never
   observed by the embedded functions.
 * numpy float arithmetic is modelled exactly over `ℚ`, except that IEEE
   special values matter for the intensity rescale (division by zero):
   `FloatV` adds `nan` / infinities, and the C-style `numpy.cast[uintN]`
   conversion is modelled as `Option ℤ` (`none` = the conversion is not
   defined: NaN, infinity or out-of-range truncated value, which in C is
   undefined behaviour and in numpy is platform dependent).
 * the slice-encode loops of `get_encoded_brainbrowser_image` execute
   `StringIO.StringIO()` and `PIL.Image.fromarray(...)`, but the module
   never imports `StringIO` and binds only `Image` (not `PIL`), so the
   first loop iteration raises `NameError`; the embedding propagates
   that error whenever a loop body would run.  The source's
   `base64.b64encode` is modelled concretely over byte lists.
 * the cubicweb plumbing (form decoding, HTML output) is out of scope;
   the stack validation loop of `TriplanarStackViewer.call` is modelled
   as a function from the decoded `file_data` to either success or the
   pair (formatted error message, disable-buttons script) it writes.
-/

namespace Zeijemol

/-! ## IEEE-style value domain for the rescale step -/

/-- A float value: an exactly represented rational, an infinity, or NaN.
Rounding is not modelled (all quantities in the claims are exact). -/
inductive FloatV where
  | num : ℚ → FloatV
  | posInf : FloatV
  | negInf : FloatV
  | nan : FloatV
deriving DecidableEq

/-- Truncation toward zero, the C conversion used by `numpy.cast[uintN]`
on a float value. -/
def truncQ (q : ℚ) : ℤ :=
  if 0 ≤ q then ⌊q⌋ else ⌈q⌉

/-- The conversion `numpy.cast[uintN]` applied to one float value, where
`bound` is the largest representable value (255 or 65535): truncate
toward zero, then the result is defined only if it is representable.
NaN and infinities have no defined conversion (`none`). -/
def castU (bound : ℕ) : FloatV → Option ℤ
  | FloatV.num q =>
      let t := truncQ q
      if 0 ≤ t ∧ t ≤ (bound : ℤ) then some t else none
  | _ => none

/-- One element of `(data - data.min()) * outMax / (data.max() - data.min())`
(triplanar.py lines 922-923 and 1034-1035), with IEEE semantics for the
division: finite/0 is NaN when the numerator is 0, a signed infinity
otherwise. -/
def scaleElem (mn mx outMax x : ℚ) : FloatV :=
  if mx - mn = 0 then
    if (x - mn) * outMax = 0 then FloatV.nan
    else if 0 < (x - mn) * outMax then FloatV.posInf
    else FloatV.negInf
  else FloatV.num ((x - mn) * outMax / (mx - mn))

/-- `ndarray.min()` over the flattened element list (junk 0 on the empty
array, where numpy raises; never used under a nonempty hypothesis). -/
def listMin : List ℚ → ℚ
  | [] => 0
  | x :: xs => xs.foldl min x

/-- `ndarray.max()` over the flattened element list. -/
def listMax : List ℚ → ℚ
  | [] => 0
  | x :: xs => xs.foldl max x

/-! ## numpy arrays -/

/-- A rank-3 numpy array: shape and indexing function. -/
structure Arr3 (α : Type) where
  n0 : ℕ
  n1 : ℕ
  n2 : ℕ
  val : ℕ → ℕ → ℕ → α

/-- A rank-4 numpy array. -/
structure Arr4 (α : Type) where
  n0 : ℕ
  n1 : ℕ
  n2 : ℕ
  n3 : ℕ
  val : ℕ → ℕ → ℕ → ℕ → α

/-- Row-major element list of a rank-3 array (`ndarray.flatten()`). -/
def Arr3.flatten {α : Type} (a : Arr3 α) : List α :=
  (List.range a.n0).flatMap fun i =>
    (List.range a.n1).flatMap fun j =>
      (List.range a.n2).map fun k => a.val i j k

/-- Row-major element list of a rank-4 array (`ndarray.flatten()`). -/
def Arr4.flatten {α : Type} (a : Arr4 α) : List α :=
  (List.range a.n0).flatMap fun i =>
    (List.range a.n1).flatMap fun j =>
      (List.range a.n2).flatMap fun k =>
        (List.range a.n3).map fun l => a.val i j k l

/-- `numpy.transpose(data, (3, 0, 1, 2))`: the last axis (time) becomes
the leading axis. -/
def transpose3012 {α : Type} (a : Arr4 α) : Arr4 α :=
  ⟨a.n3, a.n0, a.n1, a.n2, fun i j k l => a.val j k l i⟩

/-- `ndarray.T` on a rank-3 array: all axes reversed. -/
def Arr3.T {α : Type} (a : Arr3 α) : Arr3 α :=
  ⟨a.n2, a.n1, a.n0, fun i j k => a.val k j i⟩

/-- `ndarray.T` on a rank-4 array: all axes reversed. -/
def Arr4.T {α : Type} (a : Arr4 α) : Arr4 α :=
  ⟨a.n3, a.n2, a.n1, a.n0, fun i j k l => a.val l k j i⟩

/-- The voxel buffer returned by `im.get_data()`: rank 3 for a volume,
rank 4 for a volume + time series (the only ranks the views support). -/
inductive VoxelData (α : Type) where
  | d3 : Arr3 α → VoxelData α
  | d4 : Arr4 α → VoxelData α

/-- Flattened element list of a voxel buffer. -/
def VoxelData.toFlat {α : Type} : VoxelData α → List α
  | .d3 a => a.flatten
  | .d4 a => a.flatten

/-- `ndarray.T` on a voxel buffer (used by the pynifti fallback reader:
`im.getDataArray().T`, line 1031). -/
def VoxelData.T {α : Type} : VoxelData α → VoxelData α
  | .d3 a => .d3 a.T
  | .d4 a => .d4 a.T

/-! ## Intensity rescaling (lines 921-923 / 1033-1035) -/

/-- The rescale `numpy.cast[uintN]((data - data.min()) * outMax /
(data.max() - data.min()))` on a rank-3 array. -/
def rescaleArr3 (outMax : ℕ) (a : Arr3 ℚ) : Arr3 (Option ℤ) :=
  ⟨a.n0, a.n1, a.n2, fun i j k =>
    castU outMax
      (scaleElem (listMin a.flatten) (listMax a.flatten) (outMax : ℚ) (a.val i j k))⟩

/-- The rescale on a rank-4 array. -/
def rescaleArr4 (outMax : ℕ) (a : Arr4 ℚ) : Arr4 (Option ℤ) :=
  ⟨a.n0, a.n1, a.n2, a.n3, fun i j k l =>
    castU outMax
      (scaleElem (listMin a.flatten) (listMax a.flatten) (outMax : ℚ) (a.val i j k l))⟩

/-- The rescale on a voxel buffer of either rank. -/
def npRescale (outMax : ℕ) : VoxelData ℚ → VoxelData (Option ℤ)
  | .d3 a => .d3 (rescaleArr3 outMax a)
  | .d4 a => .d4 (rescaleArr4 outMax a)

/-- Rescaling following the claim's words rather than the source, for
comparison: `output = round((input - input.min()) * output_max /
(input.max() - input.min()))`, rounding to the nearest integer (the
source instead truncates toward zero through `numpy.cast`). -/
def rescaleSpecRound (outMax : ℕ) (l : List ℚ) : List ℤ :=
  l.map fun x => round ((x - listMin l) * (outMax : ℚ) / (listMax l - listMin l))

/-! ## NIfTI header and the BrainBrowser geometry header -/

/-- The fields of the nibabel NIfTI header the views read.  `dim 0` is
the rank descriptor, `dim i` the length of axis `i`; `pixdim i` the step
of axis `i`; `srow_x/y/z i` the entries of the affine rows. -/
structure NiftiHeader where
  dim : ℕ → ℕ
  pixdim : ℕ → ℚ
  qoffset_x : ℚ
  qoffset_y : ℚ
  qoffset_z : ℚ
  srow_x : ℕ → ℚ
  srow_y : ℕ → ℚ
  srow_z : ℕ → ℚ

/-- One spatial axis entry of the BrainBrowser header dict. -/
structure SpaceAxis where
  start : ℚ
  space_length : ℕ
  step : ℚ
  direction_cosines : List ℚ
deriving DecidableEq

/-- The time axis entry of the BrainBrowser header dict: the source dict
literal has only `start` and `space_length` keys (no `step`, no
`direction_cosines`), which this record mirrors field-for-field. -/
structure TimeAxis where
  start : ℕ
  space_length : ℕ
deriving DecidableEq

/-- The BrainBrowser geometry header built by both ajax callbacks
(before `json.dumps`); `time = none` models the absence of a `"time"`
key in the 3D dict literal. -/
structure BBHeader where
  order : List String
  xspace : SpaceAxis
  yspace : SpaceAxis
  zspace : SpaceAxis
  time : Option TimeAxis
deriving DecidableEq

/-- The header dict built in the `dim[0] == 3` branches (lines 932-949
and 1041-1058): `order = ["time","xspace","yspace","zspace"][1:]`. -/
def bbHeader3 (h : NiftiHeader) : BBHeader :=
  { order := ["xspace", "yspace", "zspace"],
    xspace := { start := h.qoffset_x, space_length := h.dim 1, step := h.pixdim 1,
                direction_cosines := [h.srow_x 0, h.srow_x 1, h.srow_x 2] },
    yspace := { start := h.qoffset_y, space_length := h.dim 2, step := h.pixdim 2,
                direction_cosines := [h.srow_y 0, h.srow_y 1, h.srow_y 2] },
    zspace := { start := h.qoffset_z, space_length := h.dim 3, step := h.pixdim 3,
                direction_cosines := [h.srow_z 0, h.srow_z 1, h.srow_z 2] },
    time := none }

/-- The header dict built in the `dim[0] == 4` branches (lines 964-984
and 1060-1080). -/
def bbHeader4 (h : NiftiHeader) : BBHeader :=
  { order := ["time", "xspace", "yspace", "zspace"],
    xspace := { start := h.qoffset_x, space_length := h.dim 1, step := h.pixdim 1,
                direction_cosines := [h.srow_x 0, h.srow_x 1, h.srow_x 2] },
    yspace := { start := h.qoffset_y, space_length := h.dim 2, step := h.pixdim 2,
                direction_cosines := [h.srow_y 0, h.srow_y 1, h.srow_y 2] },
    zspace := { start := h.qoffset_z, space_length := h.dim 3, step := h.pixdim 3,
                direction_cosines := [h.srow_z 0, h.srow_z 1, h.srow_z 2] },
    time := some { start := 0, space_length := h.dim 4 } }

/-! ## Base64 (`base64.b64encode`) -/

/-- The base64 alphabet. -/
def b64Chars : List Char :=
  "ABCDEFGHIJKLMNOPQRSTUVWXYZabcdefghijklmnopqrstuvwxyz0123456789+/".toList

/-- The character of a sextet value (the padding character on the junk
out-of-range case). -/
def sextet (n : ℕ) : Char := b64Chars.getD n '='

/-- The numeric value of a base64 character. -/
def b64val (c : Char) : ℕ := b64Chars.indexOf c

/-- `base64.b64encode` over a byte list. -/
def b64encode : List ℕ → List Char
  | [] => []
  | [a] => [sextet (a / 4), sextet (a % 4 * 16), '=', '=']
  | [a, b] => [sextet (a / 4), sextet (a % 4 * 16 + b / 16), sextet (b % 16 * 4), '=']
  | a :: b :: c :: rest =>
      sextet (a / 4) :: sextet (a % 4 * 16 + b / 16) :: sextet (b % 16 * 4 + c / 64) ::
        sextet (c % 64) :: b64encode rest

/-- Standard base64 decoding (the client-side inverse of
`base64.b64encode`), used to state the round-trip property. -/
def b64decode : List Char → List ℕ
  | c1 :: c2 :: c3 :: c4 :: rest =>
      if c3 = '=' then [b64val c1 * 4 + b64val c2 / 16]
      else if c4 = '=' then
        [b64val c1 * 4 + b64val c2 / 16, b64val c2 % 16 * 16 + b64val c3 / 4]
      else
        (b64val c1 * 4 + b64val c2 / 16) :: (b64val c2 % 16 * 16 + b64val c3 / 4) ::
          (b64val c3 % 4 * 64 + b64val c4) :: b64decode rest
  | _ => []

/-! ## The BrainBrowser ajax callbacks (lines 902-1090) -/

/-- The payload of `get_encoded_brainbrowser_image`: the geometry header
(serialized with `json.dumps` in the source, kept structured here) and
the `encoded_data` list of base64-encoded slices (which, because the
encode loop raises on its first iteration, can only ever be returned
empty). -/
structure EncodedPayload where
  header : BBHeader
  data : List (List Char)

/-- The payload of `get_brainbrowser_image`: the geometry header and the
flattened intensity buffer (`data.flatten().tolist()`). -/
structure RawPayload where
  header : BBHeader
  data : List (Option ℤ)

/-- The message of the `raise Exception` on unsupported dimensionality
(lines 998 and 1083). -/
def unsupportedMsg : String := "Only 3D or 3D + t images are currently supported!"

/-- Modelling artifact with no source counterpart: reached only when the
voxel buffer rank disagrees with the header `dim[0]` descriptor, a state
a well-formed NIfTI file never produces (numpy would fail while slicing
there). -/
def rankMismatchMsg : String := "voxel buffer rank does not match the header dim descriptor"

/-- The `NameError` raised by the first iteration of either slice-encode
loop: line 954 / line 991 execute `openfile = StringIO.StringIO()`, but
the module never imports `StringIO` (and the next line's `PIL` is also
unbound, as only `from PIL import Image` is imported). -/
def stringIONameError : String := "global name 'StringIO' is not defined"

/-- `get_encoded_brainbrowser_image` (lines 902-1006).  The geometry
header dict (lines 932-949 / 964-984) is built first; the slice-encode
loop that follows (lines 952-959 for 3D, lines 988-996 for 4D after the
(3,0,1,2) transpose) raises `NameError` on its first iteration because
`StringIO` and `PIL` are unbound names, so it never appends a slice:
when the loop's range is nonempty the error propagates, and only when
the loop body never runs (a zero leading extent) is the payload returned
with the still-empty `encoded_data` list.  (A volume that is entirely
empty would in fact already fail in numpy's `data.min()` reduction at
line 922; the embedding keeps its junk-on-empty min/max convention
there, a case no well-formed NIfTI volume exercises.)  The quality form
parameter is parsed (line 913) but its only use, line 956, is dead
code. -/
def get_encoded_brainbrowser_image (im_header : NiftiHeader) (im_data : VoxelData ℚ)
    (dquality : ℕ) : Except String EncodedPayload :=
  let data := npRescale 255 im_data
  if im_header.dim 0 = 3 then
    match data with
    | .d3 a =>
        if a.n0 = 0 then .ok { header := bbHeader3 im_header, data := [] }
        else .error stringIONameError
    | .d4 _ => .error rankMismatchMsg
  else if im_header.dim 0 = 4 then
    match data with
    | .d4 a4 =>
        let td := transpose3012 a4
        if td.n0 = 0 ∨ td.n1 = 0 then .ok { header := bbHeader4 im_header, data := [] }
        else .error stringIONameError
    | .d3 _ => .error rankMismatchMsg
  else .error unsupportedMsg

/-- The reader fallback of `get_brainbrowser_image` (lines 1024-1031):
try `im.get_data()`; on any failure fall back to the legacy pynifti
reader, whose array is transposed (`im.getDataArray().T`) to the nibabel
axis layout.  A failure of the fallback itself propagates. -/
def loadVoxelData (primary legacy : Except String (VoxelData ℚ)) :
    Except String (VoxelData ℚ) :=
  match primary with
  | .ok d => .ok d
  | .error _ => Except.map VoxelData.T legacy

/-- `get_brainbrowser_image` (lines 1009-1090): load (with fallback),
rescale to 0-65535, build the geometry header, transpose a 4D buffer so
time leads, and return the row-major flattened buffer. -/
def get_brainbrowser_image (primary legacy : Except String (VoxelData ℚ))
    (im_header : NiftiHeader) : Except String RawPayload :=
  match loadVoxelData primary legacy with
  | .error e => .error e
  | .ok d =>
    let data := npRescale 65535 d
    if im_header.dim 0 = 3 then
      match data with
      | .d3 a => .ok { header := bbHeader3 im_header, data := a.flatten }
      | .d4 _ => .error rankMismatchMsg
    else if im_header.dim 0 = 4 then
      match data with
      | .d4 a4 => .ok { header := bbHeader4 im_header, data := (transpose3012 a4).flatten }
      | .d3 _ => .error rankMismatchMsg
    else .error unsupportedMsg

/-! ## The triplanar stack viewer (lines 29-188) -/

/-- The fixed orientation set of `TriplanarStackViewer.call` (line 84). -/
def orientationsList : List String := ["sagittal", "coronal", "axial"]

/-- `error_message.format(snap_eid)` (lines 36-38, 67): the templated
message carrying the caller-supplied snap identifier (the doubled "the
the" is in the source). -/
def error_message (snap_eid : String) : String :=
  "Triplanar view not responding. Please contact the service administrator " ++
    "specifying the the snap code '" ++ snap_eid ++ "'."

/-- The UI-disable script written on every validation failure (line 92). -/
def disableSignal : String := "disableTriViewBtn();"

/-- The inner loop of the size check (lines 96-108): the first image's
size is the reference; every later image must match it.  `size p` stands
for `Image.open(p).size`. -/
def stackUniform {P : Type} (size : P → ℕ × ℕ) : List P → Bool
  | [] => true
  | p :: rest => rest.all fun q => decide (size q = size p)

/-- The input-check loop of `TriplanarStackViewer.call` (lines 84-108):
for each supplied orientation, reject an unknown orientation key, then
reject any image whose size differs from the orientation's first image;
either rejection writes the templated error and the disable script and
returns at once (no further entries are processed). -/
def checkStacks {P : Type} (snap_eid : String) (size : P → ℕ × ℕ) :
    List (String × List P) → Except (String × String) Unit
  | [] => .ok ()
  | (orient, paths) :: rest =>
    if orient ∈ orientationsList then
      if stackUniform size paths then checkStacks snap_eid size rest
      else .error (error_message snap_eid, disableSignal)
    else .error (error_message snap_eid, disableSignal)

/-- The ajax callback `get_b64_images` (lines 175-188): per orientation,
read each listed file and base64-encode its raw bytes, preserving keys
and order; no orientation or size validation is performed.  `fs p`
stands for the byte content of the file at path `p`. -/
def get_b64_images {P : Type} (fs : P → List ℕ)
    (file_data : List (String × List P)) : List (String × List (List Char)) :=
  file_data.map fun entry => (entry.1, entry.2.map fun path => b64encode (fs path))

/-- An orientation whose image list disagrees with its first image's
size somewhere (the condition detected by lines 96-108). -/
def stackMismatch {P : Type} (size : P → ℕ × ℕ) (paths : List P) : Prop :=
  ∃ p0 rest, paths = p0 :: rest ∧ ∃ q ∈ rest, size q ≠ size p0

/-- A `file_data` entry the check loop rejects: unknown orientation key,
or an internal size mismatch. -/
def badEntry {P : Type} (size : P → ℕ × ℕ) (e : String × List P) : Prop :=
  e.1 ∉ orientationsList ∨ stackMismatch size e.2

/-! ## Concrete sample inputs used to instantiate the theorems -/

/-- A header reporting a 3D image. -/
def hdr3W : NiftiHeader :=
  ⟨fun i => if i = 0 then 3 else 2, fun _ => 1, 0, 0, 0, fun _ => 0, fun _ => 0, fun _ => 0⟩

/-- A header reporting a 4D image. -/
def hdr4W : NiftiHeader :=
  ⟨fun i => if i = 0 then 4 else 2, fun _ => 1, 0, 0, 0, fun _ => 0, fun _ => 0, fun _ => 0⟩

/-- A header reporting an unsupported 5D image. -/
def hdr5W : NiftiHeader :=
  ⟨fun i => if i = 0 then 5 else 2, fun _ => 1, 0, 0, 0, fun _ => 0, fun _ => 0, fun _ => 0⟩

/-- A tiny 3D ramp volume holding the intensities 0, 1, 2. -/
def arr3W : Arr3 ℚ := ⟨1, 1, 3, fun _ _ k => (k : ℚ)⟩

/-- A 4D volume of the spec scenario shape (x = 4, y = 4, z = 3, t = 2). -/
def arr4W : Arr4 ℚ := ⟨4, 4, 3, 2, fun i j k l => (i : ℚ) + j + k + l⟩

/-- A constant-intensity 3D volume of value 5. -/
def constVolW : VoxelData ℚ := VoxelData.d3 ⟨1, 1, 2, fun _ _ _ => (5 : ℚ)⟩

/-- A concrete file system: every path holds the bytes 0, 255, 100. -/
def fsW : ℕ → List ℕ := fun _ => [0, 255, 100]

/-- A concrete `file_data` mapping whose first key is not an
orientation. -/
def fdW : List (String × List ℕ) := [("foo", [0]), ("sagittal", [1, 2])]

/-! ## Helper lemmas -/

lemma foldl_min_le_init (xs : List ℚ) (a : ℚ) : xs.foldl min a ≤ a := by
  induction xs generalizing a with
  | nil => exact le_refl a
  | cons x xs ih => exact le_trans (ih (min a x)) (min_le_left a x)

lemma foldl_min_le_mem (xs : List ℚ) (a x : ℚ) (hx : x ∈ xs) : xs.foldl min a ≤ x := by
  induction hx generalizing a with
  | head as => exact le_trans (foldl_min_le_init as (min a x)) (min_le_right a x)
  | tail y hy ih => exact ih (min a y)

lemma foldl_min_mem (xs : List ℚ) (a : ℚ) : xs.foldl min a = a ∨ xs.foldl min a ∈ xs := by
  induction xs generalizing a with
  | nil => exact Or.inl rfl
  | cons x xs ih =>
    rcases ih (min a x) with h | h
    · rcases le_total a x with hax | hax
      · exact Or.inl (by rw [List.foldl_cons, h, min_eq_left hax])
      · refine Or.inr ?_
        rw [List.foldl_cons, h, min_eq_right hax]
        exact List.mem_cons_self x xs
    · exact Or.inr (List.mem_cons_of_mem x h)

lemma foldl_max_init_le (xs : List ℚ) (a : ℚ) : a ≤ xs.foldl max a := by
  induction xs generalizing a with
  | nil => exact le_refl a
  | cons x xs ih => exact le_trans (le_max_left a x) (ih (max a x))

lemma foldl_max_mem_le (xs : List ℚ) (a x : ℚ) (hx : x ∈ xs) : x ≤ xs.foldl max a := by
  induction hx generalizing a with
  | head as => exact le_trans (le_max_right a x) (foldl_max_init_le as (max a x))
  | tail y hy ih => exact ih (max a y)

lemma foldl_max_mem (xs : List ℚ) (a : ℚ) : xs.foldl max a = a ∨ xs.foldl max a ∈ xs := by
  induction xs generalizing a with
  | nil => exact Or.inl rfl
  | cons x xs ih =>
    rcases ih (max a x) with h | h
    · rcases le_total a x with hax | hax
      · refine Or.inr ?_
        rw [List.foldl_cons, h, max_eq_right hax]
        exact List.mem_cons_self x xs
      · exact Or.inl (by rw [List.foldl_cons, h, max_eq_left hax])
    · exact Or.inr (List.mem_cons_of_mem x h)

lemma listMin_mem (l : List ℚ) (h : l ≠ []) : listMin l ∈ l := by
  match l with
  | [] => exact absurd rfl h
  | x :: xs =>
    rcases foldl_min_mem xs x with h1 | h1
    · rw [listMin, h1]; exact List.mem_cons_self x xs
    · rw [listMin]; exact List.mem_cons_of_mem x h1

lemma listMin_le (l : List ℚ) (x : ℚ) (hx : x ∈ l) : listMin l ≤ x := by
  match l with
  | y :: ys =>
    rcases List.mem_cons.mp hx with h | h
    · subst h; exact foldl_min_le_init ys x
    · exact foldl_min_le_mem ys y x h

lemma listMax_mem (l : List ℚ) (h : l ≠ []) : listMax l ∈ l := by
  match l with
  | [] => exact absurd rfl h
  | x :: xs =>
    rcases foldl_max_mem xs x with h1 | h1
    · rw [listMax, h1]; exact List.mem_cons_self x xs
    · rw [listMax]; exact List.mem_cons_of_mem x h1

lemma le_listMax (l : List ℚ) (x : ℚ) (hx : x ∈ l) : x ≤ listMax l := by
  match l with
  | y :: ys =>
    rcases List.mem_cons.mp hx with h | h
    · subst h; exact foldl_max_init_le ys x
    · exact foldl_max_mem_le ys y x h

lemma listMin_const (l : List ℚ) (c : ℚ) (hne : l ≠ []) (hc : ∀ x ∈ l, x = c) :
    listMin l = c :=
  hc _ (listMin_mem l hne)

lemma listMax_const (l : List ℚ) (c : ℚ) (hne : l ≠ []) (hc : ∀ x ∈ l, x = c) :
    listMax l = c :=
  hc _ (listMax_mem l hne)

lemma flatMap_const_length {α β : Type} (l : List α) (f : α → List β) (S : ℕ)
    (hf : ∀ x ∈ l, (f x).length = S) : (l.flatMap f).length = l.length * S := by
  induction l with
  | nil => simp
  | cons x xs ih =>
    have hx := hf x (List.mem_cons_self x xs)
    have := ih fun y hy => hf y (List.mem_cons_of_mem _ hy)
    simp only [List.flatMap_cons, List.length_append, this, hx, List.length_cons]
    ring

lemma flatMap_const_getElem {α β : Type} (l : List α) (f : α → List β) (S : ℕ)
    (hf : ∀ x ∈ l, (f x).length = S) (i k : ℕ) (hi : i < l.length) (hk : k < S) :
    (l.flatMap f)[i * S + k]? = (f (l.get ⟨i, hi⟩))[k]? := by
  induction l generalizing i with
  | nil => simp at hi
  | cons x xs ih =>
    cases i with
    | zero =>
      have hx : (f x).length = S := hf x (List.mem_cons_self x xs)
      simp only [List.flatMap_cons, Nat.zero_mul, Nat.zero_add]
      rw [List.getElem?_append, if_pos (by omega)]
      rfl
    | succ i =>
      have hx : (f x).length = S := hf x (List.mem_cons_self x xs)
      have hi' : i < xs.length := by simpa using hi
      simp only [List.flatMap_cons]
      rw [List.getElem?_append_right (by simp only [Nat.succ_mul]; omega)]
      have harith : (i + 1) * S + k - (f x).length = i * S + k := by
        simp only [Nat.succ_mul]; omega
      rw [harith, ih (fun y hy => hf y (List.mem_cons_of_mem _ hy)) i hi']
      rfl

lemma nat_mul_add_lt {j J r M : ℕ} (hj : j < J) (hr : r < M) : j * M + r < J * M :=
  calc j * M + r < j * M + M := by omega
  _ = (j + 1) * M := by ring
  _ ≤ J * M := Nat.mul_le_mul_right M (by omega)

lemma Arr4.flatten_length {α : Type} (a : Arr4 α) :
    a.flatten.length = a.n0 * (a.n1 * (a.n2 * a.n3)) := by
  rw [Arr4.flatten, flatMap_const_length _ _ (a.n1 * (a.n2 * a.n3)), List.length_range]
  intro i _
  rw [flatMap_const_length _ _ (a.n2 * a.n3), List.length_range]
  intro j _
  rw [flatMap_const_length _ _ a.n3, List.length_range]
  intro k _
  simp

lemma Arr4.flatten_getElem {α : Type} (a : Arr4 α) (i j k l : ℕ)
    (hi : i < a.n0) (hj : j < a.n1) (hk : k < a.n2) (hl : l < a.n3) :
    a.flatten[i * (a.n1 * (a.n2 * a.n3)) + (j * (a.n2 * a.n3) + (k * a.n3 + l))]?
      = some (a.val i j k l) := by
  have hr2 : k * a.n3 + l < a.n2 * a.n3 := nat_mul_add_lt hk hl
  have hr1 : j * (a.n2 * a.n3) + (k * a.n3 + l) < a.n1 * (a.n2 * a.n3) :=
    nat_mul_add_lt hj hr2
  rw [Arr4.flatten,
    flatMap_const_getElem _ _ (a.n1 * (a.n2 * a.n3)) ?hf1 i _ (by simpa using hi) hr1]
  case hf1 =>
    intro x _
    rw [flatMap_const_length _ _ (a.n2 * a.n3), List.length_range]
    intro j' _
    rw [flatMap_const_length _ _ a.n3, List.length_range]
    intro k' _
    simp
  rw [List.get_eq_getElem, List.getElem_range,
    flatMap_const_getElem _ _ (a.n2 * a.n3) ?hf2 j _ (by simpa using hj) hr2]
  case hf2 =>
    intro j' _
    rw [flatMap_const_length _ _ a.n3, List.length_range]
    intro k' _
    simp
  rw [List.get_eq_getElem, List.getElem_range,
    flatMap_const_getElem _ _ a.n3 (by simp) k _ (by simpa using hk) hl]
  rw [List.get_eq_getElem, List.getElem_range, List.getElem?_map]
  simp [List.getElem?_range hl]

lemma rescaleArr3_flatten (m : ℕ) (a : Arr3 ℚ) :
    (rescaleArr3 m a).flatten = a.flatten.map fun x =>
      castU m (scaleElem (listMin a.flatten) (listMax a.flatten) (m : ℚ) x) := by
  simp only [rescaleArr3, Arr3.flatten, List.map_flatMap, List.map_map]
  rfl

lemma rescaleArr4_flatten (m : ℕ) (a : Arr4 ℚ) :
    (rescaleArr4 m a).flatten = a.flatten.map fun x =>
      castU m (scaleElem (listMin a.flatten) (listMax a.flatten) (m : ℚ) x) := by
  simp only [rescaleArr4, Arr4.flatten, List.map_flatMap, List.map_map]
  rfl

lemma npRescale_toFlat (m : ℕ) (d : VoxelData ℚ) :
    (npRescale m d).toFlat = d.toFlat.map fun x =>
      castU m (scaleElem (listMin d.toFlat) (listMax d.toFlat) (m : ℚ) x) := by
  cases d with
  | d3 a => exact rescaleArr3_flatten m a
  | d4 a => exact rescaleArr4_flatten m a

lemma scaleElem_num (mn mx outMax x : ℚ) (hne : mx - mn ≠ 0) :
    scaleElem mn mx outMax x = FloatV.num ((x - mn) * outMax / (mx - mn)) := by
  rw [scaleElem, if_neg hne]

lemma castU_num_of_bounds (bound : ℕ) (q : ℚ) (h0 : 0 ≤ q) (hb : q ≤ (bound : ℚ)) :
    castU bound (FloatV.num q) = some ⌊q⌋ := by
  have ht : truncQ q = ⌊q⌋ := if_pos h0
  have hf0 : 0 ≤ ⌊q⌋ := Int.floor_nonneg.mpr h0
  have hfb : ⌊q⌋ ≤ (bound : ℤ) := by
    have := Int.floor_le_floor hb
    rwa [Int.floor_natCast] at this
  simp only [castU, ht]
  rw [if_pos ⟨hf0, hfb⟩]

/-- Range facts of one rescaled element when the intensity range is not
degenerate: the cast is defined and yields the truncated scale value,
lying in `[0, m]`. -/
lemma rescale_elem_spec (l : List ℚ) (m : ℕ) (x : ℚ) (hx : x ∈ l)
    (hd : listMin l ≠ listMax l) :
    castU m (scaleElem (listMin l) (listMax l) (m : ℚ) x)
      = some ⌊(x - listMin l) * (m : ℚ) / (listMax l - listMin l)⌋
    ∧ 0 ≤ ⌊(x - listMin l) * (m : ℚ) / (listMax l - listMin l)⌋
    ∧ ⌊(x - listMin l) * (m : ℚ) / (listMax l - listMin l)⌋ ≤ (m : ℤ)
    ∧ truncQ ((x - listMin l) * (m : ℚ) / (listMax l - listMin l))
        = ⌊(x - listMin l) * (m : ℚ) / (listMax l - listMin l)⌋ := by
  have hmnx : listMin l ≤ x := listMin_le l x hx
  have hxmx : x ≤ listMax l := le_listMax l x hx
  have hlt : listMin l < listMax l := lt_of_le_of_ne (le_trans hmnx hxmx) hd
  have hpos : 0 < listMax l - listMin l := by linarith
  have hne : listMax l - listMin l ≠ 0 := ne_of_gt hpos
  have hq0 : 0 ≤ (x - listMin l) * (m : ℚ) / (listMax l - listMin l) :=
    div_nonneg (mul_nonneg (by linarith) (by positivity)) (le_of_lt hpos)
  have hqm : (x - listMin l) * (m : ℚ) / (listMax l - listMin l) ≤ (m : ℚ) := by
    rw [div_le_iff₀ hpos]
    have h1 : x - listMin l ≤ listMax l - listMin l := by linarith
    calc (x - listMin l) * (m : ℚ) ≤ (listMax l - listMin l) * (m : ℚ) :=
          mul_le_mul_of_nonneg_right h1 (by positivity)
    _ = (m : ℚ) * (listMax l - listMin l) := mul_comm _ _
  have hfloor0 : 0 ≤ ⌊(x - listMin l) * (m : ℚ) / (listMax l - listMin l)⌋ :=
    Int.floor_nonneg.mpr hq0
  have hfloorm : ⌊(x - listMin l) * (m : ℚ) / (listMax l - listMin l)⌋ ≤ (m : ℤ) := by
    have := Int.floor_le_floor hqm
    rwa [Int.floor_natCast] at this
  exact ⟨by rw [scaleElem_num _ _ _ _ hne, castU_num_of_bounds _ _ hq0 hqm], hfloor0, hfloorm,
    if_pos hq0⟩

/-- The element attaining the minimum is rescaled to exactly 0. -/
lemma rescale_at_min (l : List ℚ) (m : ℕ) (hd : listMin l ≠ listMax l) :
    castU m (scaleElem (listMin l) (listMax l) (m : ℚ) (listMin l)) = some 0 := by
  have hne : l ≠ [] := by
    intro h
    subst h
    exact hd rfl
  have h := (rescale_elem_spec l m (listMin l) (listMin_mem l hne) hd).1
  rw [h]
  norm_num

/-- The element attaining the maximum is rescaled to exactly `m`. -/
lemma rescale_at_max (l : List ℚ) (m : ℕ) (hd : listMin l ≠ listMax l) :
    castU m (scaleElem (listMin l) (listMax l) (m : ℚ) (listMax l)) = some (m : ℤ) := by
  have hne : l ≠ [] := by
    intro h
    subst h
    exact hd rfl
  have hmm : listMin l ∈ l := listMin_mem l hne
  have hlt : listMin l < listMax l :=
    lt_of_le_of_ne (listMin_le l _ (listMax_mem l hne)) hd
  have hden : listMax l - listMin l ≠ 0 := by
    intro h
    apply hd
    linarith [sub_eq_zero.mp h]
  have h := (rescale_elem_spec l m (listMax l) (listMax_mem l hne) hd).1
  rw [h, mul_div_cancel_left₀ _ hden, Int.floor_natCast]

lemma sextet_val : ∀ n : ℕ, n < 64 → b64val (sextet n) = n := by decide

lemma sextet_ne_pad : ∀ n : ℕ, n < 64 → sextet n ≠ '=' := by decide

/-- Base64 decoding inverts `b64encode` on byte lists (all entries below
256). -/
lemma b64_roundtrip : ∀ l : List ℕ, (∀ b ∈ l, b < 256) → b64decode (b64encode l) = l
  | [], _ => rfl
  | [a], h => by
      have ha : a < 256 := h a (by simp)
      have h1 : a / 4 < 64 := by omega
      have h2 : a % 4 * 16 < 64 := by omega
      simp only [b64encode, b64decode]
      simp only [reduceIte]
      rw [sextet_val _ h1, sextet_val _ h2]
      have e1 : a / 4 * 4 + a % 4 * 16 / 16 = a := by omega
      rw [e1]
  | [a, b], h => by
      have ha : a < 256 := h a (by simp)
      have hb : b < 256 := h b (by simp)
      have h1 : a / 4 < 64 := by omega
      have h2 : a % 4 * 16 + b / 16 < 64 := by omega
      have h3 : b % 16 * 4 < 64 := by omega
      simp only [b64encode, b64decode]
      rw [if_neg (sextet_ne_pad _ h3)]
      simp only [reduceIte]
      rw [sextet_val _ h1, sextet_val _ h2, sextet_val _ h3]
      have e1 : a / 4 * 4 + (a % 4 * 16 + b / 16) / 16 = a := by omega
      have e2 : (a % 4 * 16 + b / 16) % 16 * 16 + b % 16 * 4 / 4 = b := by omega
      rw [e1, e2]
  | [a, b, c], h => by
      have ha : a < 256 := h a (by simp)
      have hb : b < 256 := h b (by simp)
      have hc : c < 256 := h c (by simp)
      have h1 : a / 4 < 64 := by omega
      have h2 : a % 4 * 16 + b / 16 < 64 := by omega
      have h3 : b % 16 * 4 + c / 64 < 64 := by omega
      have h4 : c % 64 < 64 := by omega
      simp only [b64encode, b64decode]
      rw [if_neg (sextet_ne_pad _ h3), if_neg (sextet_ne_pad _ h4)]
      rw [sextet_val _ h1, sextet_val _ h2, sextet_val _ h3, sextet_val _ h4]
      have e1 : a / 4 * 4 + (a % 4 * 16 + b / 16) / 16 = a := by omega
      have e2 : (a % 4 * 16 + b / 16) % 16 * 16 + (b % 16 * 4 + c / 64) / 4 = b := by omega
      have e3 : (b % 16 * 4 + c / 64) % 4 * 64 + c % 64 = c := by omega
      rw [e1, e2, e3]
  | a :: b :: c :: d :: rest, h => by
      have ha : a < 256 := h a (by simp)
      have hb : b < 256 := h b (by simp)
      have hc : c < 256 := h c (by simp)
      have h1 : a / 4 < 64 := by omega
      have h2 : a % 4 * 16 + b / 16 < 64 := by omega
      have h3 : b % 16 * 4 + c / 64 < 64 := by omega
      have h4 : c % 64 < 64 := by omega
      have ih := b64_roundtrip (d :: rest) fun y hy => h y (by simp at hy ⊢; tauto)
      simp only [b64encode, b64decode]
      rw [if_neg (sextet_ne_pad _ h3), if_neg (sextet_ne_pad _ h4)]
      rw [sextet_val _ h1, sextet_val _ h2, sextet_val _ h3, sextet_val _ h4]
      have e1 : a / 4 * 4 + (a % 4 * 16 + b / 16) / 16 = a := by omega
      have e2 : (a % 4 * 16 + b / 16) % 16 * 16 + (b % 16 * 4 + c / 64) / 4 = b := by omega
      have e3 : (b % 16 * 4 + c / 64) % 4 * 64 + c % 64 = c := by omega
      rw [e1, e2, e3, ih]

/-- Branch characterization of the encoded operation on a 3D image:
either the encode loop never runs (no x-slice) and the empty payload
with its header is returned, or the loop's first iteration raises. -/
lemma get_encoded_d3_eq (h : NiftiHeader) (a : Arr3 ℚ) (dq : ℕ) (hd3 : h.dim 0 = 3) :
    get_encoded_brainbrowser_image h (.d3 a) dq
      = if a.n0 = 0 then .ok ⟨bbHeader3 h, []⟩ else .error stringIONameError := by
  unfold get_encoded_brainbrowser_image
  rw [hd3]
  rfl

/-- Branch characterization of the encoded operation on a 4D image. -/
lemma get_encoded_d4_eq (h : NiftiHeader) (a : Arr4 ℚ) (dq : ℕ) (hd4 : h.dim 0 = 4) :
    get_encoded_brainbrowser_image h (.d4 a) dq
      = if a.n3 = 0 ∨ a.n0 = 0 then .ok ⟨bbHeader4 h, []⟩ else .error stringIONameError := by
  unfold get_encoded_brainbrowser_image
  rw [hd4]
  rfl

lemma stackUniform_iff {P : Type} (size : P → ℕ × ℕ) (paths : List P) :
    stackUniform size paths = true ↔ ¬ stackMismatch size paths := by
  cases paths with
  | nil =>
    simp only [stackUniform, stackMismatch]
    simp
  | cons p rest =>
    constructor
    · intro hall hmis
      rcases hmis with ⟨p0, r, heq, q, hq, hne⟩
      have hinj : p = p0 ∧ rest = r := by injection heq with h1 h2; exact ⟨h1, h2⟩
      rcases hinj with ⟨rfl, rfl⟩
      have := of_decide_eq_true (List.all_eq_true.mp hall q hq)
      exact hne this
    · intro hn
      apply List.all_eq_true.mpr
      intro q hq
      apply decide_eq_true
      by_contra hne
      exact hn ⟨p, rest, rfl, q, hq, hne⟩

/-! ## Claim theorems -/

/-- Claim C7: stack validation fails (yielding exactly the templated
error formatted with the caller-supplied snap identifier together with
the UI-disable signal, and processing no further entries) if and only if
some supplied orientation key is outside {sagittal, coronal, axial} or
some image in an orientation's list has a pixel size different from
that orientation's first image; on every other input (in particular
three internally uniform orientations whose sizes differ across
orientations) it succeeds. -/
theorem stack_validation_iff {P : Type} (snap_eid : String) (size : P → ℕ × ℕ)
    (file_data : List (String × List P)) :
    (checkStacks snap_eid size file_data = .error (error_message snap_eid, disableSignal)
        ↔ ∃ e ∈ file_data, badEntry size e)
  ∧ (checkStacks snap_eid size file_data = .ok ()
        ↔ ∀ e ∈ file_data, ¬ badEntry size e) := by
  induction file_data with
  | nil => simp [checkStacks]
  | cons ent rest ih =>
    obtain ⟨orient, paths⟩ := ent
    by_cases ho : orient ∈ orientationsList
    · by_cases hu : stackUniform size paths = true
      · have hck : checkStacks snap_eid size ((orient, paths) :: rest)
            = checkStacks snap_eid size rest := by
          simp [checkStacks, ho, hu]
        have hnotbad : ¬ badEntry size (orient, paths) := by
          rintro (h | h)
          · exact h ho
          · exact (stackUniform_iff size paths).mp hu h
        rw [hck]
        constructor
        · rw [ih.1]
          constructor
          · rintro ⟨e, he, hbe⟩
            exact ⟨e, List.mem_cons_of_mem _ he, hbe⟩
          · rintro ⟨e, he, hbe⟩
            rcases List.mem_cons.mp he with rfl | he'
            · exact absurd hbe hnotbad
            · exact ⟨e, he', hbe⟩
        · rw [ih.2]
          constructor
          · intro hall e he
            rcases List.mem_cons.mp he with rfl | he'
            · exact hnotbad
            · exact hall e he'
          · intro hall e he
            exact hall e (List.mem_cons_of_mem _ he)
      · have hbad : badEntry size (orient, paths) := by
          right
          by_contra hmis
          exact hu ((stackUniform_iff size paths).mpr hmis)
        have hck : checkStacks snap_eid size ((orient, paths) :: rest)
            = .error (error_message snap_eid, disableSignal) := by
          simp [checkStacks, ho, hu]
        rw [hck]
        refine ⟨⟨fun _ => ⟨(orient, paths), List.mem_cons_self _ _, hbad⟩, fun _ => rfl⟩,
          ⟨fun h => Except.noConfusion h, fun hall => ?_⟩⟩
        exact absurd hbad (hall _ (List.mem_cons_self _ _))
    · have hbad : badEntry size (orient, paths) := Or.inl ho
      have hck : checkStacks snap_eid size ((orient, paths) :: rest)
          = .error (error_message snap_eid, disableSignal) := by
        simp [checkStacks, ho]
      rw [hck]
      refine ⟨⟨fun _ => ⟨(orient, paths), List.mem_cons_self _ _, hbad⟩, fun _ => rfl⟩,
        ⟨fun h => Except.noConfusion h, fun hall => ?_⟩⟩
      exact absurd hbad (hall _ (List.mem_cons_self _ _))

/-- Claim C1: for a header reporting `dim[0] == 3`, the geometry
normalization (the header dict built by both volume operations before
any slicing) is exactly the header whose order list is
[xspace, yspace, zspace] with no time entry, each spatial axis carrying
{start = qoffset, space_length = dim[i], step = pixdim[i],
direction_cosines = first three entries of the srow row}; for
`dim[0] == 4` the order list is [time, xspace, yspace, zspace] and the
time entry is {start = 0, space_length = dim[4]} (its record type has no
step / direction_cosines field, mirroring the source dict literal).  The
raw-mode payload carries this header; the encoded-mode operation builds
the same header, though its encode loop raises before returning for any
volume with a slice, so its header conjuncts are conditional on a
payload being returned. -/
theorem volume_header_normalization (h3 h4 : NiftiHeader) (a3 : Arr3 ℚ) (a4 : Arr4 ℚ)
    (leg3 leg4 : Except String (VoxelData ℚ)) (dq : ℕ)
    (hd3 : h3.dim 0 = 3) (hd4 : h4.dim 0 = 4) :
    (∀ p, get_encoded_brainbrowser_image h3 (.d3 a3) dq = .ok p → p.header = bbHeader3 h3)
  ∧ (∀ p, get_encoded_brainbrowser_image h4 (.d4 a4) dq = .ok p → p.header = bbHeader4 h4)
  ∧ (get_brainbrowser_image (.ok (.d3 a3)) leg3 h3).map RawPayload.header
        = .ok (bbHeader3 h3)
  ∧ (get_brainbrowser_image (.ok (.d4 a4)) leg4 h4).map RawPayload.header
        = .ok (bbHeader4 h4)
  ∧ (bbHeader3 h3).order = ["xspace", "yspace", "zspace"]
  ∧ (bbHeader3 h3).time = none
  ∧ (bbHeader3 h3).xspace
      = ⟨h3.qoffset_x, h3.dim 1, h3.pixdim 1, [h3.srow_x 0, h3.srow_x 1, h3.srow_x 2]⟩
  ∧ (bbHeader3 h3).yspace
      = ⟨h3.qoffset_y, h3.dim 2, h3.pixdim 2, [h3.srow_y 0, h3.srow_y 1, h3.srow_y 2]⟩
  ∧ (bbHeader3 h3).zspace
      = ⟨h3.qoffset_z, h3.dim 3, h3.pixdim 3, [h3.srow_z 0, h3.srow_z 1, h3.srow_z 2]⟩
  ∧ (bbHeader4 h4).order = ["time", "xspace", "yspace", "zspace"]
  ∧ (bbHeader4 h4).time = some ⟨0, h4.dim 4⟩
  ∧ (bbHeader4 h4).xspace
      = ⟨h4.qoffset_x, h4.dim 1, h4.pixdim 1, [h4.srow_x 0, h4.srow_x 1, h4.srow_x 2]⟩
  ∧ (bbHeader4 h4).yspace
      = ⟨h4.qoffset_y, h4.dim 2, h4.pixdim 2, [h4.srow_y 0, h4.srow_y 1, h4.srow_y 2]⟩
  ∧ (bbHeader4 h4).zspace
      = ⟨h4.qoffset_z, h4.dim 3, h4.pixdim 3, [h4.srow_z 0, h4.srow_z 1, h4.srow_z 2]⟩ := by
  refine ⟨?_, ?_, ?_, ?_, rfl, rfl, rfl, rfl, rfl, rfl, rfl, rfl, rfl, rfl⟩
  · intro p hp
    rw [get_encoded_d3_eq h3 a3 dq hd3] at hp
    by_cases h0 : a3.n0 = 0
    · rw [if_pos h0] at hp
      cases hp
      rfl
    · rw [if_neg h0] at hp
      exact Except.noConfusion hp
  · intro p hp
    rw [get_encoded_d4_eq h4 a4 dq hd4] at hp
    by_cases h0 : a4.n3 = 0 ∨ a4.n0 = 0
    · rw [if_pos h0] at hp
      cases hp
      rfl
    · rw [if_neg h0] at hp
      exact Except.noConfusion hp
  · simp [get_brainbrowser_image, loadVoxelData, npRescale, hd3, Except.map]
  · simp [get_brainbrowser_image, loadVoxelData, npRescale, hd4, Except.map]

/-- Witness for C1 at concrete 3D and 4D headers and volumes. -/
theorem volume_header_normalization_w :
    (get_brainbrowser_image (.ok (.d3 arr3W)) (.error "") hdr3W).map RawPayload.header
        = .ok (bbHeader3 hdr3W)
  ∧ (bbHeader3 hdr3W).time = none
  ∧ (bbHeader4 hdr4W).time = some ⟨0, hdr4W.dim 4⟩ :=
  have h := volume_header_normalization hdr3W hdr4W arr3W arr4W
    (.error "") (.error "") 80 rfl rfl
  ⟨h.2.2.1, h.2.2.2.2.2.1, h.2.2.2.2.2.2.2.2.2.2.1⟩

/-- Claim C6: a header whose `dim[0]` is neither 3 nor 4 makes both the
encoded-mode and the raw-mode operations fail with the
unsupported-dimensionality error, returning no payload (the branch is
taken before building any payload, and before the broken encode lines
are ever reached). -/
theorem unsupported_dimensionality (h : NiftiHeader) (d : VoxelData ℚ)
    (leg : Except String (VoxelData ℚ)) (dq : ℕ)
    (h3 : h.dim 0 ≠ 3) (h4 : h.dim 0 ≠ 4) :
    get_encoded_brainbrowser_image h d dq = .error unsupportedMsg
  ∧ get_brainbrowser_image (.ok d) leg h = .error unsupportedMsg := by
  constructor
  · cases d <;> simp [get_encoded_brainbrowser_image, npRescale, h3, h4]
  · cases d <;> simp [get_brainbrowser_image, loadVoxelData, npRescale, h3, h4]

/-- Witness for C6 at a 5D header. -/
theorem unsupported_dimensionality_w :
    get_encoded_brainbrowser_image hdr5W constVolW 80 = .error unsupportedMsg
  ∧ get_brainbrowser_image (.ok constVolW) (.error "") hdr5W = .error unsupportedMsg :=
  unsupported_dimensionality hdr5W constVolW (.error "") 80
    (by simp [hdr5W]) (by simp [hdr5W])

/-- Claim C8: in the raw-mode operation, a failed primary read falls
back to the legacy reader with its array transposed to the primary
layout (so the operation behaves exactly as if the transposed legacy
buffer had been read directly); a failure of the fallback itself
propagates unchanged to the caller, and a successful primary read never
invokes the fallback. -/
theorem raw_reader_fallback (primary legacy : Except String (VoxelData ℚ))
    (h : NiftiHeader) :
    (∀ d, primary = .ok d → loadVoxelData primary legacy = .ok d)
  ∧ (∀ e d, primary = .error e → legacy = .ok d → loadVoxelData primary legacy = .ok d.T)
  ∧ (∀ e d leg2, primary = .error e → legacy = .ok d →
      get_brainbrowser_image primary legacy h = get_brainbrowser_image (.ok d.T) leg2 h)
  ∧ (∀ e e2, primary = .error e → legacy = .error e2 →
      get_brainbrowser_image primary legacy h = .error e2) := by
  refine ⟨?_, ?_, ?_, ?_⟩
  · intro d hp
    subst hp
    rfl
  · intro e d hp hl
    subst hp
    subst hl
    rfl
  · intro e d leg2 hp hl
    subst hp
    subst hl
    simp [get_brainbrowser_image, loadVoxelData, Except.map]
  · intro e e2 hp hl
    subst hp
    subst hl
    rfl

/-- Witness for C8: concrete failing primary with successful and failing
legacy readers. -/
theorem raw_reader_fallback_w :
    loadVoxelData (.error "missing bytes") (.ok constVolW) = .ok constVolW.T
  ∧ get_brainbrowser_image (.error "missing bytes") (.error "legacy broken") hdr3W
      = .error "legacy broken" :=
  ⟨(raw_reader_fallback (.error "missing bytes") (.ok constVolW) hdr3W).2.1
      "missing bytes" constVolW rfl rfl,
    (raw_reader_fallback (.error "missing bytes") (.error "legacy broken") hdr3W).2.2.2
      "missing bytes" "legacy broken" rfl rfl⟩

/-- Claim C10 (amended): the outcome of the encoded operation on a 4D
image is independent of the quality parameter — but because the slice
encoding crashes before the quality value is ever consulted (its only
use, line 956, sits in the 3D branch after the line-954 NameError), not
because a payload is produced: for a volume with at least one timepoint
and one slice both invocations raise the very same NameError. -/
theorem encoded_quality_independence (h : NiftiHeader) (a4 : Arr4 ℚ) (q1 q2 : ℕ)
    (hd4 : h.dim 0 = 4) :
    get_encoded_brainbrowser_image h (.d4 a4) q1
        = get_encoded_brainbrowser_image h (.d4 a4) q2
  ∧ (0 < a4.n3 → 0 < a4.n0 →
      get_encoded_brainbrowser_image h (.d4 a4) q1 = .error stringIONameError) := by
  constructor
  · rfl
  · intro hT hS
    rw [get_encoded_d4_eq h a4 q1 hd4, if_neg]
    rintro (h0 | h0) <;> omega

/-- Witness for C10 at quality values 10 and 95 on the sample 4D
volume. -/
theorem encoded_quality_independence_w :
    get_encoded_brainbrowser_image hdr4W (.d4 arr4W) 10
        = get_encoded_brainbrowser_image hdr4W (.d4 arr4W) 95
  ∧ get_encoded_brainbrowser_image hdr4W (.d4 arr4W) 10 = .error stringIONameError :=
  have h := encoded_quality_independence hdr4W arr4W 10 95 rfl
  ⟨h.1, h.2 (by decide) (by decide)⟩

/-- Counterexample for C10 as stated: on a concrete 4D volume the two
invocations (qualities 10 and 95) produce no headers and no slice
sequences at all - each raises the encode loop NameError instead of
returning a payload. -/
theorem encoded_quality_payload_cex :
    get_encoded_brainbrowser_image hdr4W (.d4 arr4W) 10 = .error stringIONameError
  ∧ get_encoded_brainbrowser_image hdr4W (.d4 arr4W) 95 = .error stringIONameError := by
  constructor <;>
    · rw [get_encoded_d4_eq _ _ _ rfl, if_neg]
      rintro (h0 | h0) <;> simp [arr4W] at h0

/-- Claim C2 (amended): the rescale computes, for every element,
`truncate_toward_zero((input - input.min()) * output_max / (input.max()
- input.min()))` cast to the target unsigned width — truncation, not the
claim's `round` — and, for every input whose max differs from its min,
the cast is defined everywhere, every output element lies in
`[0, output_max]`, the value 0 is attained (at the minimum) and the
value `output_max` is attained (at the maximum). -/
theorem intensity_rescaler_range (m : ℕ) (d : VoxelData ℚ)
    (hd : listMin d.toFlat ≠ listMax d.toFlat) :
    ((npRescale m d).toFlat = d.toFlat.map fun x =>
        some (truncQ ((x - listMin d.toFlat) * (m : ℚ) / (listMax d.toFlat - listMin d.toFlat))))
  ∧ (∀ v ∈ (npRescale m d).toFlat, ∃ z : ℤ, v = some z ∧ 0 ≤ z ∧ z ≤ (m : ℤ))
  ∧ some (0 : ℤ) ∈ (npRescale m d).toFlat
  ∧ some ((m : ℕ) : ℤ) ∈ (npRescale m d).toFlat := by
  have hne : d.toFlat ≠ [] := by
    intro h
    rw [h] at hd
    exact hd rfl
  have hflat := npRescale_toFlat m d
  refine ⟨?_, ?_, ?_, ?_⟩
  · rw [hflat]
    apply List.map_congr_left
    intro x hx
    have hs := rescale_elem_spec d.toFlat m x hx hd
    rw [hs.1, hs.2.2.2]
  · intro v hv
    rw [hflat] at hv
    obtain ⟨x, hx, rfl⟩ := List.mem_map.mp hv
    have hs := rescale_elem_spec d.toFlat m x hx hd
    exact ⟨_, hs.1, hs.2.1, hs.2.2.1⟩
  · rw [hflat]
    exact List.mem_map.mpr ⟨listMin d.toFlat, listMin_mem _ hne, rescale_at_min _ m hd⟩
  · rw [hflat]
    exact List.mem_map.mpr ⟨listMax d.toFlat, listMax_mem _ hne, rescale_at_max _ m hd⟩

/-- Witness for C2 on the ramp volume holding 0, 1, 2 with m = 255. -/
theorem intensity_rescaler_range_w :
    some (0 : ℤ) ∈ (npRescale 255 (VoxelData.d3 arr3W)).toFlat
  ∧ some ((255 : ℕ) : ℤ) ∈ (npRescale 255 (VoxelData.d3 arr3W)).toFlat := by
  have hd : listMin (VoxelData.d3 arr3W).toFlat ≠ listMax (VoxelData.d3 arr3W).toFlat := by
    simp [VoxelData.toFlat, arr3W, Arr3.flatten, List.range_succ, listMin, listMax]
  exact ⟨(intensity_rescaler_range 255 (VoxelData.d3 arr3W) hd).2.2.1,
    (intensity_rescaler_range 255 (VoxelData.d3 arr3W) hd).2.2.2⟩

/-- Counterexample for C2 as stated: on intensities [0, 1, 2] the code
truncates 127.5 to 127, while the claimed round formula yields 128. -/
theorem intensity_rescaler_round_cex :
    (npRescale 255 (VoxelData.d3 arr3W)).toFlat = [some 0, some 127, some 255]
  ∧ rescaleSpecRound 255 [0, 1, 2] = [0, 128, 255]
  ∧ (127 : ℤ) ≠ 128 := by
  refine ⟨?_, ?_, by decide⟩
  · simp [npRescale, rescaleArr3, VoxelData.toFlat, arr3W, Arr3.flatten, listMin, listMax,
      scaleElem, castU, truncQ, List.range_succ]
    norm_num
  · simp [rescaleSpecRound, listMin, listMax]
    norm_num [round_eq]

/-- Claim C3 (amended): on a constant-intensity volume the rescale does
not raise (the embedded functions are total), but the division by zero
is NOT guarded: every element of the scaled array is the NaN produced by
`0 * output_max / 0`, whose unsigned cast is undefined
(platform-dependent in numpy) rather than a guaranteed zero fill. -/
theorem degenerate_rescale_nan (m : ℕ) (d : VoxelData ℚ) (c : ℚ)
    (hne : d.toFlat ≠ []) (hconst : ∀ x ∈ d.toFlat, x = c) :
    (∀ x ∈ d.toFlat,
        scaleElem (listMin d.toFlat) (listMax d.toFlat) (m : ℚ) x = FloatV.nan)
  ∧ (∀ v ∈ (npRescale m d).toFlat, v = none) := by
  have hmn := listMin_const _ c hne hconst
  have hmx := listMax_const _ c hne hconst
  have hsc : ∀ x ∈ d.toFlat,
      scaleElem (listMin d.toFlat) (listMax d.toFlat) (m : ℚ) x = FloatV.nan := by
    intro x hx
    rw [hmn, hmx, hconst x hx, scaleElem, if_pos (by ring_nf), if_pos (by ring_nf)]
  refine ⟨hsc, ?_⟩
  intro v hv
  rw [npRescale_toFlat] at hv
  obtain ⟨x, hx, rfl⟩ := List.mem_map.mp hv
  rw [hsc x hx]
  rfl

/-- Witness for C3 on the constant volume of value 5. -/
theorem degenerate_rescale_nan_w :
    scaleElem (listMin constVolW.toFlat) (listMax constVolW.toFlat) ((255 : ℕ) : ℚ) 5
      = FloatV.nan := by
  have hflat : constVolW.toFlat = [5, 5] := by
    simp [constVolW, VoxelData.toFlat, Arr3.flatten, List.range_succ]
  exact (degenerate_rescale_nan 255 constVolW 5 (by rw [hflat]; simp)
    (by rw [hflat]; intro x hx; simpa using hx)).1 5 (by rw [hflat]; simp)

/-- Counterexample for C3 as stated: on the constant volume of value 5
the scale expression is NaN (so the branch is not guarded) and the
rescaled output is undefined, not the claimed all-zeros. -/
theorem degenerate_rescale_cex :
    scaleElem 5 5 255 5 = FloatV.nan
  ∧ (npRescale 255 constVolW).toFlat = [none, none]
  ∧ (npRescale 255 constVolW).toFlat ≠ [some 0, some 0] := by
  have h : (npRescale 255 constVolW).toFlat = [none, none] := by
    simp [npRescale, rescaleArr3, constVolW, VoxelData.toFlat, Arr3.flatten, listMin, listMax,
      scaleElem, castU, List.range_succ]
  exact ⟨by simp [scaleElem], h, by rw [h]; simp⟩

/-- Claim C4 (code bug): the claimed time-major T * S encoded sequence
is the documented intent (the function's docstring promises the encoded
buffer, and the 4D loop is written time-outer, slice-inner), but the
code can never produce it: the first iteration of the encode loop
(line 991) evaluates the unbound name `StringIO`, so for every 4D
volume with at least one timepoint and one slice the operation raises
NameError instead of returning the sequence. -/
theorem encoded_4d_encode_crashes (h : NiftiHeader) (a : Arr4 ℚ) (dq : ℕ)
    (hd4 : h.dim 0 = 4) (hT : 0 < a.n3) (hS : 0 < a.n0) :
    get_encoded_brainbrowser_image h (.d4 a) dq = .error stringIONameError := by
  rw [get_encoded_d4_eq h a dq hd4, if_neg]
  rintro (h0 | h0) <;> omega

/-- Witness for C4 evaluating the encoded operation at the failing
input: the (x=4, y=4, z=3, t=2) sample volume. -/
theorem encoded_4d_encode_crashes_w :
    get_encoded_brainbrowser_image hdr4W (.d4 arr4W) 80 = .error stringIONameError :=
  encoded_4d_encode_crashes hdr4W arr4W 80 rfl (by decide) (by decide)

/-- Claim C5: in raw mode the whole rescaled buffer is returned as one
flat sequence in row-major order, a 4D buffer being transposed first so
time leads; in particular, for a 4D volume its flattened output has
length T * X * Y * Z and the element at flat index
t * (X * Y * Z) + x * (Y * Z) + y * Z + z is the rescaled intensity at
spatial position (x, y, z) of timepoint t (time-major order). -/
theorem raw_mode_flatten (h3 h4 : NiftiHeader) (a3 : Arr3 ℚ) (a4 : Arr4 ℚ)
    (leg3 leg4 : Except String (VoxelData ℚ))
    (hd3 : h3.dim 0 = 3) (hd4 : h4.dim 0 = 4) :
    get_brainbrowser_image (.ok (.d3 a3)) leg3 h3
        = .ok ⟨bbHeader3 h3, (rescaleArr3 65535 a3).flatten⟩
  ∧ get_brainbrowser_image (.ok (.d4 a4)) leg4 h4
        = .ok ⟨bbHeader4 h4, (transpose3012 (rescaleArr4 65535 a4)).flatten⟩
  ∧ (transpose3012 (rescaleArr4 65535 a4)).flatten.length
        = a4.n3 * (a4.n0 * (a4.n1 * a4.n2))
  ∧ ∀ t x y z, t < a4.n3 → x < a4.n0 → y < a4.n1 → z < a4.n2 →
      (transpose3012 (rescaleArr4 65535 a4)).flatten[
          t * (a4.n0 * (a4.n1 * a4.n2)) + (x * (a4.n1 * a4.n2) + (y * a4.n2 + z))]?
        = some ((rescaleArr4 65535 a4).val x y z t) := by
  refine ⟨?_, ?_, ?_, ?_⟩
  · unfold get_brainbrowser_image loadVoxelData
    rw [hd3]
    rfl
  · unfold get_brainbrowser_image loadVoxelData
    rw [hd4]
    rfl
  · exact Arr4.flatten_length (transpose3012 (rescaleArr4 65535 a4))
  · intro t x y z ht hx hy hz
    exact Arr4.flatten_getElem (transpose3012 (rescaleArr4 65535 a4)) t x y z ht hx hy hz

/-- Witness for C5 on the (x=4, y=4, z=3, t=2) sample volume: the
flattened raw output has length 2 * 4 * 4 * 3 = 96 and position
1*48 + 2*12 + 3*3 + 1 = 82 holds the voxel (2, 3, 1) of timepoint 1. -/
theorem raw_mode_flatten_w :
    get_brainbrowser_image (.ok (.d4 arr4W)) (.error "") hdr4W
        = .ok ⟨bbHeader4 hdr4W, (transpose3012 (rescaleArr4 65535 arr4W)).flatten⟩
  ∧ (transpose3012 (rescaleArr4 65535 arr4W)).flatten.length
        = arr4W.n3 * (arr4W.n0 * (arr4W.n1 * arr4W.n2))
  ∧ (transpose3012 (rescaleArr4 65535 arr4W)).flatten[
        1 * (arr4W.n0 * (arr4W.n1 * arr4W.n2)) + (2 * (arr4W.n1 * arr4W.n2) + (3 * arr4W.n2 + 1))]?
        = some ((rescaleArr4 65535 arr4W).val 2 3 1 1) :=
  have h := raw_mode_flatten hdr3W hdr4W arr3W arr4W (.error "") (.error "") rfl rfl
  ⟨h.2.1, h.2.2.1, h.2.2.2 1 2 3 1 (by decide) (by decide) (by decide) (by decide)⟩

/-- Claim C9: the stack base64 encoder returns a mapping with exactly
the input's keys in order, the i-th output entry listing, in order, the
base64 encoding of the exact bytes of the i-th input entry's files, so
that base64-decoding every element recovers the original file contents;
it performs no orientation-key or pixel-size validation (it is total and
key-preserving on any input, e.g. keys outside {sagittal, coronal,
axial}). -/
theorem get_b64_images_roundtrip {P : Type} (fs : P → List ℕ)
    (fd : List (String × List P)) (hb : ∀ p : P, ∀ b ∈ fs p, b < 256) :
    (get_b64_images fs fd).map Prod.fst = fd.map Prod.fst
  ∧ (∀ i : ℕ, (get_b64_images fs fd)[i]?
      = (fd[i]?).map fun e => (e.1, e.2.map fun p => b64encode (fs p)))
  ∧ (∀ p : P, b64decode (b64encode (fs p)) = fs p) := by
  refine ⟨?_, ?_, ?_⟩
  · rw [get_b64_images, List.map_map]
    rfl
  · intro i
    rw [get_b64_images, List.getElem?_map]
  · intro p
    exact b64_roundtrip (fs p) (hb p)

/-- Witness for C9 on a concrete mapping whose first key is not an
orientation key. -/
theorem get_b64_images_roundtrip_w :
    (get_b64_images fsW fdW).map Prod.fst = fdW.map Prod.fst
  ∧ b64decode (b64encode (fsW 0)) = fsW 0 := by
  have hb : ∀ p : ℕ, ∀ b ∈ fsW p, b < 256 := fun p => by
    simp only [fsW]
    decide
  exact ⟨(get_b64_images_roundtrip fsW fdW hb).1, (get_b64_images_roundtrip fsW fdW hb).2.2 0⟩

end Zeijemol
